import Mathlib

/-!
Shallow embedding of the context-graph backend (`src/backend/app`) in Lean 4.

Conventions used throughout:
* Python `str` is modelled as Lean `String`; Python `len` / slicing on
  strings operate on Unicode code points, matching `String.data` lengths.
* Python dicts are modelled as association lists `List (String × α)` in
  insertion order with unique keys; `dict.get` is association-list lookup.
* Calls into external services (the Neo4j driver in
  `context_graph_client`, which is not part of this repository's `app`
  sources beyond its call sites, the LLM HTTP endpoint, MySQL) are
  modelled as explicit `Except`-valued inputs to the embedded functions:
  `.ok` is a normal return, `.error` is a raised Python exception.
-/

namespace ContextGraph

/-- Python-level exception, as observed at a tool boundary.
`isValueError` distinguishes `ValueError` (used by the read-only Cypher
gate) from every other exception class; `msg` is `str(e)`. -/
structure PyErr where
  isValueError : Bool
  msg : String
  deriving Repr, DecidableEq

/-- A Python/JSON value as stored in a property mapping.  Covers the
value shapes the backend manipulates: strings, lists, ints, bools,
`None`, and nested dicts. -/
inductive PVal where
  | pstr (s : String)
  | plist (l : List PVal)
  | pint (n : Int)
  | pbool (b : Bool)
  | pnull
  | pdict (d : List (String × PVal))

/-- A property mapping (Python dict from string keys to values). -/
abbrev PropMap := List (String × PVal)

/-- `agent.slim_properties` (src/backend/app/agent.py:17-32), the loop
translated clause by clause: skip embedding-vector keys, truncate long
strings to 200 chars plus `"..."`, cut lists to 10 entries, pass
everything else through. -/
def slim_properties : PropMap → PropMap
  | [] => []
  | (key, value) :: rest =>
    -- Skip embedding vectors
    if key = "fastrp_embedding" ∨ key = "reasoning_embedding" ∨ key = "embedding" then
      slim_properties rest
    else
      match value with
      -- Truncate long strings
      | .pstr s =>
        if 200 < s.length then
          (key, .pstr (⟨s.data.take 200⟩ ++ "...")) :: slim_properties rest
        else
          (key, .pstr s) :: slim_properties rest
      -- Limit list sizes
      | .plist l =>
        if 10 < l.length then
          (key, .plist (l.take 10)) :: slim_properties rest
        else
          (key, .plist l) :: slim_properties rest
      | v => (key, v) :: slim_properties rest

/-- The keys `slim_properties` drops. -/
def embeddingKeys : List String := ["fastrp_embedding", "reasoning_embedding", "embedding"]

/-- Spec-side restatement of the per-value transform of §4.1 (used only
to compare `slim_properties` against the spec's words). -/
def slimSpecVal : PVal → PVal
  | .pstr s => if 200 < s.length then .pstr (⟨s.data.take 200⟩ ++ "...") else .pstr s
  | .plist l => if 10 < l.length then .plist (l.take 10) else .plist l
  | v => v

/-- Spec-side restatement of the per-entry transform of §4.1. -/
def slimSpecEntry (kv : String × PVal) : Option (String × PVal) :=
  if kv.1 ∈ embeddingKeys then none else some (kv.1, slimSpecVal kv.2)

theorem slim_properties_eq_filterMap (props : PropMap) :
    slim_properties props = props.filterMap slimSpecEntry := by
  induction props with
  | nil => rfl
  | cons kv rest ih =>
    obtain ⟨key, value⟩ := kv
    by_cases hk : key = "fastrp_embedding" ∨ key = "reasoning_embedding" ∨ key = "embedding"
    · have hk' : key ∈ embeddingKeys := by
        simp [embeddingKeys]
        tauto
      simp [slim_properties, hk, List.filterMap_cons, slimSpecEntry, hk', ih]
    · have hk' : key ∉ embeddingKeys := by
        simp [embeddingKeys]
        tauto
      cases value with
      | pstr s =>
        by_cases hs : 200 < s.length <;>
          simp [slim_properties, hk, List.filterMap_cons, slimSpecEntry, hk', slimSpecVal, hs, ih]
      | plist l =>
        by_cases hl : 10 < l.length <;>
          simp [slim_properties, hk, List.filterMap_cons, slimSpecEntry, hk', slimSpecVal, hl, ih]
      | pint n => simp [slim_properties, hk, List.filterMap_cons, slimSpecEntry, hk', slimSpecVal, ih]
      | pbool b => simp [slim_properties, hk, List.filterMap_cons, slimSpecEntry, hk', slimSpecVal, ih]
      | pnull => simp [slim_properties, hk, List.filterMap_cons, slimSpecEntry, hk', slimSpecVal, ih]
      | pdict d => simp [slim_properties, hk, List.filterMap_cons, slimSpecEntry, hk', slimSpecVal, ih]

theorem length_take200_ellipsis (s : String) :
    ((⟨s.data.take 200⟩ : String) ++ "...").length = min 200 s.length + 3 := by
  show (((⟨s.data.take 200⟩ : String) ++ "...").data).length = _
  simp [String.data_append, List.length_take]

theorem slimSpecVal_idem (v : PVal) : slimSpecVal (slimSpecVal v) = slimSpecVal v := by
  cases v with
  | pstr s =>
    by_cases hs : 200 < s.length
    · have hlen : ((⟨s.data.take 200⟩ : String) ++ "...").length = 203 := by
        rw [length_take200_ellipsis]
        omega
      have htake : (((⟨s.data.take 200⟩ : String) ++ "...").data).take 200 = s.data.take 200 := by
        have hs' : 200 < s.data.length := hs
        have h200 : (s.data.take 200).length = 200 := by
          rw [List.length_take]
          omega
        rw [String.data_append]
        exact List.take_left' h200
      simp only [slimSpecVal, hs, if_true, hlen, htake]
      norm_num
    · simp [slimSpecVal, hs]
  | plist l =>
    by_cases hl : 10 < l.length
    · have : ¬ 10 < (l.take 10).length := by
        simp [List.length_take]
      simp [slimSpecVal, hl, this]
    · simp [slimSpecVal, hl]
  | pint n => rfl
  | pbool b => rfl
  | pnull => rfl
  | pdict d => rfl

theorem slimSpecEntry_idem (kv : String × PVal) :
    (slimSpecEntry kv).bind slimSpecEntry = slimSpecEntry kv := by
  obtain ⟨k, v⟩ := kv
  by_cases hk : k ∈ embeddingKeys
  · simp [slimSpecEntry, hk]
  · simp [slimSpecEntry, hk, slimSpecVal_idem]

theorem slimSpecVal_pstr_length {v : PVal} {s : String}
    (h : slimSpecVal v = .pstr s) : s.length ≤ 203 := by
  cases v with
  | pstr s₀ =>
    by_cases hs : 200 < s₀.length
    · simp only [slimSpecVal, hs, if_true, PVal.pstr.injEq] at h
      subst h
      rw [length_take200_ellipsis]
      omega
    · simp only [slimSpecVal, hs, if_false, PVal.pstr.injEq] at h
      subst h
      omega
  | plist l =>
    simp only [slimSpecVal] at h
    split at h <;> simp at h
  | pint n => simp [slimSpecVal] at h
  | pbool b => simp [slimSpecVal] at h
  | pnull => simp [slimSpecVal] at h
  | pdict d => simp [slimSpecVal] at h

theorem slimSpecVal_plist_length {v : PVal} {l : List PVal}
    (h : slimSpecVal v = .plist l) : l.length ≤ 10 := by
  cases v with
  | pstr s₀ =>
    simp only [slimSpecVal] at h
    split at h <;> simp at h
  | plist l₀ =>
    by_cases hl : 10 < l₀.length
    · simp only [slimSpecVal, hl, if_true, PVal.plist.injEq] at h
      subst h
      simp [List.length_take]
    · simp only [slimSpecVal, hl, if_false, PVal.plist.injEq] at h
      subst h
      omega
  | pint n => simp [slimSpecVal] at h
  | pbool b => simp [slimSpecVal] at h
  | pnull => simp [slimSpecVal] at h
  | pdict d => simp [slimSpecVal] at h

/-- C2: `slim_properties` drops the three embedding keys, truncates
strings longer than 200 characters to their first 200 characters plus
the ellipsis marker, truncates lists longer than 10 entries to their
first 10 entries, and passes every other pair through unchanged (the
first conjunct equates it with `slimSpecEntry`, which is that rule
verbatim); consequently no string value in the output exceeds 203
characters and no list value exceeds 10 entries. -/
theorem claim_C2_slim_properties_contract (props : PropMap) :
    slim_properties props = props.filterMap slimSpecEntry
    ∧ (∀ k v, (k, v) ∈ slim_properties props → k ∉ embeddingKeys)
    ∧ (∀ k s, (k, PVal.pstr s) ∈ slim_properties props → s.length ≤ 203)
    ∧ (∀ k l, (k, PVal.plist l) ∈ slim_properties props → l.length ≤ 10) := by
  refine ⟨slim_properties_eq_filterMap props, ?_, ?_, ?_⟩
  · intro k v hmem
    rw [slim_properties_eq_filterMap] at hmem
    rw [List.mem_filterMap] at hmem
    obtain ⟨⟨k₀, v₀⟩, _, heq⟩ := hmem
    by_cases hk : k₀ ∈ embeddingKeys
    · simp [slimSpecEntry, hk] at heq
    · simp only [slimSpecEntry, hk, if_false, Option.some.injEq, Prod.mk.injEq] at heq
      obtain ⟨hkk, -⟩ := heq
      subst hkk
      exact hk
  · intro k s hmem
    rw [slim_properties_eq_filterMap] at hmem
    rw [List.mem_filterMap] at hmem
    obtain ⟨⟨k₀, v₀⟩, -, heq⟩ := hmem
    by_cases hk : k₀ ∈ embeddingKeys
    · simp [slimSpecEntry, hk] at heq
    · simp only [slimSpecEntry, hk, if_false, Option.some.injEq, Prod.mk.injEq] at heq
      exact slimSpecVal_pstr_length heq.2
  · intro k l hmem
    rw [slim_properties_eq_filterMap] at hmem
    rw [List.mem_filterMap] at hmem
    obtain ⟨⟨k₀, v₀⟩, -, heq⟩ := hmem
    by_cases hk : k₀ ∈ embeddingKeys
    · simp [slimSpecEntry, hk] at heq
    · simp only [slimSpecEntry, hk, if_false, Option.some.injEq, Prod.mk.injEq] at heq
      exact slimSpecVal_plist_length heq.2

theorem claim_C2_witness :
    slim_properties [("note", PVal.pstr "hi")]
        = [("note", PVal.pstr "hi")].filterMap slimSpecEntry
    ∧ String.length "hi" ≤ 203 := by
  refine ⟨(claim_C2_slim_properties_contract [("note", PVal.pstr "hi")]).1, ?_⟩
  exact (claim_C2_slim_properties_contract [("note", PVal.pstr "hi")]).2.2.1 "note" "hi"
    (by have h : ¬ (200 < String.length "hi") := by decide
        simp [slim_properties, h])

/- ============================================================
   `json.dumps` (CPython defaults: `ensure_ascii=True`; the tools call
   it either with `indent=2` or with no indent), modelled so the tool
   success payloads can be produced as real strings.
   ============================================================ -/

/-- Lowercase hex digit of `n % 16`. -/
def hexDigit (n : Nat) : Char :=
  let m := n % 16
  if m < 10 then Char.ofNat (48 + m) else Char.ofNat (87 + m)

/-- The last `k` lowercase hex digits of `n`, most significant first. -/
def hexDigitsOf (k n : Nat) : List Char :=
  match k with
  | 0 => []
  | k + 1 => hexDigitsOf k (n / 16) ++ [hexDigit n]

/-- Four lowercase hex digits, as in a JSON `\uXXXX` escape. -/
def hex4 (n : Nat) : String := ⟨hexDigitsOf 4 n⟩

/-- Escape of one character inside a JSON string literal, following
CPython `json.dumps` with `ensure_ascii=True` (non-ASCII characters
become `\uXXXX`, astral characters a surrogate pair). -/
def escapeChar (c : Char) : String :=
  if c = '"' then "\\\""
  else if c = '\\' then "\\\\"
  else if c = '\n' then "\\n"
  else if c = '\r' then "\\r"
  else if c = '\t' then "\\t"
  else if c.toNat = 8 then "\\b"
  else if c.toNat = 12 then "\\f"
  else if c.toNat < 32 then "\\u" ++ hex4 c.toNat
  else if c.toNat ≤ 126 then ⟨[c]⟩
  else if c.toNat ≤ 65535 then "\\u" ++ hex4 c.toNat
  else
    "\\u" ++ hex4 (55296 + (c.toNat - 65536) / 1024) ++ "\\u" ++ hex4 (56320 + (c.toNat - 65536) % 1024)

/-- JSON escape of a whole string (no surrounding quotes). -/
def jsonEscape (s : String) : String := ⟨(s.data.map (fun c => (escapeChar c).data)).join⟩

/-- `n` spaces. -/
def spaces (n : Nat) : String := ⟨List.replicate n ' '⟩

mutual

/-- `json.dumps(v, indent=2)` at indentation level `lvl`. -/
def dumpsVal (lvl : Nat) : PVal → String
  | .pnull => "null"
  | .pbool true => "true"
  | .pbool false => "false"
  | .pint n => toString n
  | .pstr s => "\"" ++ jsonEscape s ++ "\""
  | .plist [] => "[]"
  | .plist (x :: xs) => "[\n" ++ dumpsItems (lvl + 2) x xs ++ "\n" ++ spaces lvl ++ "]"
  | .pdict [] => "\x7b\x7d"
  | .pdict (kv :: kvs) =>
    "\x7b\n" ++ dumpsFields (lvl + 2) kv kvs ++ "\n" ++ spaces lvl ++ "\x7d"
termination_by v => sizeOf v
decreasing_by all_goals (simp_wf <;> omega)

/-- Comma-and-newline separated array items at level `lvl`. -/
def dumpsItems (lvl : Nat) (x : PVal) : List PVal → String
  | [] => spaces lvl ++ dumpsVal lvl x
  | y :: ys => spaces lvl ++ dumpsVal lvl x ++ ",\n" ++ dumpsItems lvl y ys
termination_by xs => 1 + sizeOf x + sizeOf xs
decreasing_by all_goals (simp_wf <;> omega)

/-- Comma-and-newline separated object fields at level `lvl`. -/
def dumpsFields (lvl : Nat) : String × PVal → List (String × PVal) → String
  | (k, v), [] => spaces lvl ++ "\"" ++ jsonEscape k ++ "\": " ++ dumpsVal lvl v
  | (k, v), kv₂ :: kvs =>
    spaces lvl ++ "\"" ++ jsonEscape k ++ "\": " ++ dumpsVal lvl v ++ ",\n" ++
      dumpsFields lvl kv₂ kvs
termination_by kv kvs => 1 + sizeOf kv + sizeOf kvs
decreasing_by all_goals (simp_wf <;> omega)

end

mutual

/-- `json.dumps(v)` with no indent (default separators `", "`/`": "`). -/
def dumpsCompact : PVal → String
  | .pnull => "null"
  | .pbool true => "true"
  | .pbool false => "false"
  | .pint n => toString n
  | .pstr s => "\"" ++ jsonEscape s ++ "\""
  | .plist [] => "[]"
  | .plist (x :: xs) => "[" ++ dumpsCompactItems x xs ++ "]"
  | .pdict [] => "\x7b\x7d"
  | .pdict (kv :: kvs) => "\x7b" ++ dumpsCompactFields kv kvs ++ "\x7d"
termination_by v => sizeOf v
decreasing_by all_goals (simp_wf <;> omega)

/-- Compact array items. -/
def dumpsCompactItems (x : PVal) : List PVal → String
  | [] => dumpsCompact x
  | y :: ys => dumpsCompact x ++ ", " ++ dumpsCompactItems y ys
termination_by xs => 1 + sizeOf x + sizeOf xs
decreasing_by all_goals (simp_wf <;> omega)

/-- Compact object fields. -/
def dumpsCompactFields : String × PVal → List (String × PVal) → String
  | (k, v), [] => "\"" ++ jsonEscape k ++ "\": " ++ dumpsCompact v
  | (k, v), kv₂ :: kvs =>
    "\"" ++ jsonEscape k ++ "\": " ++ dumpsCompact v ++ ", " ++ dumpsCompactFields kv₂ kvs
termination_by kv kvs => 1 + sizeOf kv + sizeOf kvs
decreasing_by all_goals (simp_wf <;> omega)

end

/- ============================================================
   SchemaService (src/backend/app/schema_service.py).
   The schema document is a dict; we type its values by the shapes
   `get_schema_summary` reads: string lists, string-to-int count maps,
   and pattern records.  `context_graph_client.get_schema()` (external
   to the app sources) appears as an `Except`-valued input.
   ============================================================ -/

/-- One entry of `relationship_patterns`: a dict with optional
`from_label` / `rel_type` / `to_label` / `count` fields (the code reads
each with `.get` and a default). -/
structure Pat where
  from_label : Option String
  rel_type : Option String
  to_label : Option String
  count : Option Int
  deriving DecidableEq

/-- A typed value of the schema document. -/
inductive SchemaVal where
  | sStrs (l : List String)
  | sCounts (m : List (String × Int))
  | sPats (l : List Pat)
  deriving DecidableEq

/-- The schema document: a dict in insertion order. -/
abbrev SchemaDoc := List (String × SchemaVal)

/-- `schema.get(key, [])` when a string list is expected. -/
def getStrs (doc : SchemaDoc) (k : String) : List String :=
  match doc.find? (·.1 = k) with
  | some (_, SchemaVal.sStrs l) => l
  | _ => []

/-- `schema.get(key, {})` when a count map is expected. -/
def getCounts (doc : SchemaDoc) (k : String) : List (String × Int) :=
  match doc.find? (·.1 = k) with
  | some (_, SchemaVal.sCounts m) => m
  | _ => []

/-- `schema.get(key, [])` when pattern records are expected. -/
def getPats (doc : SchemaDoc) (k : String) : List Pat :=
  match doc.find? (·.1 = k) with
  | some (_, SchemaVal.sPats l) => l
  | _ => []

/-- `counts.get(label, 0)`. -/
def countOf (m : List (String × Int)) (k : String) : Int :=
  ((m.find? (·.1 = k)).map (·.2)).getD 0

/-- `SchemaService.get_schema_summary`
(src/backend/app/schema_service.py:39-85) as a function of the schema
document returned by `get_schema`. -/
def get_schema_summary_of (schema : SchemaDoc) : String :=
  if schema.isEmpty then "Schema not available. Use get_schema tool to fetch it."
  else
    -- Node labels with counts
    let node_labels := getStrs schema "node_labels"
    let node_counts := getCounts schema "node_counts"
    let lines₁ : List String :=
      if node_labels.isEmpty then [] else
        "## Node Labels (with counts)" ::
          node_labels.map (fun label =>
            "- " ++ label ++ ": " ++ toString (countOf node_counts label) ++ " nodes")
    -- Relationship types with counts
    let rel_types := getStrs schema "relationship_types"
    let rel_counts := getCounts schema "relationship_counts"
    let lines₂ : List String :=
      if rel_types.isEmpty then [] else
        "" :: "## Relationship Types (with counts)" ::
          rel_types.map (fun rt =>
            "- " ++ rt ++ ": " ++ toString (countOf rel_counts rt) ++ " relationships")
    -- Relationship patterns (connectivity), limited to 50
    let patterns := getPats schema "relationship_patterns"
    let lines₃ : List String :=
      if patterns.isEmpty then [] else
        "" :: "## Relationship Patterns (from -[type]-> to)" ::
          (patterns.take 50).map (fun p =>
            "- (" ++ p.from_label.getD "?" ++ ")-[" ++ p.rel_type.getD "?" ++ "]->(" ++
              p.to_label.getD "?" ++ "): " ++ toString (p.count.getD 0))
    -- Key property hints, limited to 30
    let prop_keys := getStrs schema "property_keys"
    let lines₄ : List String :=
      if prop_keys.isEmpty then [] else
        ["", "## Property Keys (available on nodes/relationships)",
          String.intercalate ", " (prop_keys.take 30) ++
            (if 30 < prop_keys.length then "..." else "")]
    let lines := lines₁ ++ lines₂ ++ lines₃ ++ lines₄
    if lines.isEmpty then "Empty schema." else String.intercalate "\n" lines

/-- The class-level cache of `SchemaService`. -/
structure SchemaCache where
  cache : Option SchemaDoc
  cache_time : Option Nat

/-- `SchemaService.refresh` (src/backend/app/schema_service.py:27-36).
`fetched` is the outcome of `context_graph_client.get_schema()`; on
failure the old cache is kept (or set to `{}` when there was none) and
a `RuntimeError` is re-raised, here the `.error` component. -/
def SchemaService.refresh (st : SchemaCache) (fetched : Except PyErr SchemaDoc)
    (now : Nat) : SchemaCache × Except String Unit :=
  match fetched with
  | .ok s => (⟨some s, some now⟩, .ok ())
  | .error e =>
    -- Keep old cache on failure
    (⟨match st.cache with | none => some [] | some c => some c, st.cache_time⟩,
      .error ("Failed to refresh schema: " ++ e.msg))

/-- `SchemaService.get_schema` (src/backend/app/schema_service.py:18-24):
return the cache if present, otherwise refresh (letting a refresh
failure propagate) and return `cls._cache or {}`. -/
def SchemaService.get_schema (st : SchemaCache) (fetched : Except PyErr SchemaDoc)
    (now : Nat) : Except String SchemaDoc × SchemaCache :=
  match st.cache with
  | some c => (.ok c, st)
  | none =>
    match h : SchemaService.refresh st fetched now with
    | (st₂, .ok ()) => (.ok (st₂.cache.getD []), st₂)
    | (st₂, .error e) => (.error e, st₂)

/- ============================================================
   Graph data shapes and the MCP tools (src/backend/app/agent.py).
   `GraphData`/`GNode`/`GRel` mirror the objects produced by
   `context_graph_client.get_graph_data`; `N4Node`/`N4Rel` mirror the
   Neo4j driver node/relationship objects read off raw records
   (`element_id`, `labels`, `dict(node)`, `rel.start_node.element_id`).
   `convert_node_properties`, defined in `context_graph_client` (outside
   the app sources), is an arbitrary parameter `conv`.
   ============================================================ -/

/-- A node of a `GraphData` result. -/
structure GNode where
  id : String
  labels : List String
  properties : PropMap

/-- A relationship of a `GraphData` result. -/
structure GRel where
  id : String
  type : String
  start_node_id : String
  end_node_id : String
  properties : PropMap

/-- The `GraphData` object returned by the graph client. -/
structure GraphData where
  nodes : List GNode
  relationships : List GRel

/-- A serialized node dict (`{"id", "labels", "properties"}`). -/
structure NodeDict where
  id : String
  labels : List String
  properties : PropMap

/-- A serialized relationship dict
(`{"id", "type", "startNodeId", "endNodeId", "properties"}`). -/
structure RelDict where
  id : String
  type : String
  startNodeId : String
  endNodeId : String
  properties : PropMap

/-- The `{"nodes", "relationships"}` envelope. -/
structure GD where
  nodes : List NodeDict
  relationships : List RelDict

/-- `agent.graph_data_to_dict` (src/backend/app/agent.py:35-55).  The
falsy-`graph_data` guard is modelled by `Option`. -/
def graph_data_to_dict (graph_data : Option GraphData) : GD :=
  match graph_data with
  | none => ⟨[], []⟩
  | some g =>
    let node_ids := g.nodes.map (·.id)
    let nodes := g.nodes.map (fun n =>
      NodeDict.mk n.id n.labels (slim_properties n.properties))
    let relationships := (g.relationships.filter (fun r =>
        node_ids.contains r.start_node_id && node_ids.contains r.end_node_id)).map (fun r =>
      RelDict.mk r.id r.type r.start_node_id r.end_node_id (slim_properties r.properties))
    ⟨nodes, relationships⟩

/-- A raw Neo4j node as used in `search_nodes`/`find_paths`. -/
structure N4Node where
  element_id : String
  labels : List String
  props : PropMap

/-- A raw Neo4j relationship; `start_element_id`/`end_element_id` stand
for `rel.start_node.element_id`/`rel.end_node.element_id`. -/
structure N4Rel where
  element_id : String
  type : String
  start_element_id : String
  end_element_id : String
  props : PropMap

/-- The single record returned by the `search_nodes`/`find_paths`
Cypher: `record["nodes"]` and `record["rels"]`, each possibly `None`
and possibly containing `None` entries (the code guards both). -/
structure N4Record where
  nodes : Option (List (Option N4Node))
  rels : Option (List (Option N4Rel))

/-- The node loop of `search_nodes` (agent.py:184-195) and `find_paths`
(agent.py:265-276): skip falsy entries, dedupe by `element_id` via the
`seen` set, slim the converted properties. -/
def collectNodes (conv : PropMap → PropMap) :
    List (Option N4Node) → List String → List NodeDict
  | [], _ => []
  | none :: rest, seen => collectNodes conv rest seen
  | some n :: rest, seen =>
    if seen.contains n.element_id then collectNodes conv rest seen
    else
      NodeDict.mk n.element_id n.labels (slim_properties (conv n.props)) ::
        collectNodes conv rest (n.element_id :: seen)

/-- The relationship loop of `search_nodes` (agent.py:197-211): skip
falsy entries, dedupe by `element_id` (the id is recorded as seen even
when the endpoint test fails), keep only relationships with both
endpoints among `node_ids`. -/
def collectRels (node_ids : List String) :
    List (Option N4Rel) → List String → List RelDict
  | [], _ => []
  | none :: rest, seen => collectRels node_ids rest seen
  | some r :: rest, seen =>
    if seen.contains r.element_id then collectRels node_ids rest seen
    else
      let tail := collectRels node_ids rest (r.element_id :: seen)
      if node_ids.contains r.start_element_id && node_ids.contains r.end_element_id then
        RelDict.mk r.element_id r.type r.start_element_id r.end_element_id
          (slim_properties r.props) :: tail
      else tail

/-- The relationship loop of `find_paths` (agent.py:278-289): no
dedup, only the falsy guard and the endpoint test. -/
def collectPathRels (node_ids : List String) : List (Option N4Rel) → List RelDict
  | [] => []
  | none :: rest => collectPathRels node_ids rest
  | some r :: rest =>
    if node_ids.contains r.start_element_id && node_ids.contains r.end_element_id then
      RelDict.mk r.element_id r.type r.start_element_id r.end_element_id
        (slim_properties r.props) :: collectPathRels node_ids rest
    else collectPathRels node_ids rest

/-- The `graph_data` envelope `search_nodes` builds from its record
(agent.py:184-212). -/
def search_graph_data (conv : PropMap → PropMap) (record : N4Record) : GD :=
  let nodes := collectNodes conv (record.nodes.getD []) []
  let node_ids := nodes.map (·.id)
  ⟨nodes, collectRels node_ids (record.rels.getD []) []⟩

/-- The `graph_data` envelope `find_paths` builds from its record
(agent.py:265-290); reached only when `record["nodes"]` is truthy. -/
def find_paths_graph_data (conv : PropMap → PropMap)
    (nodes : List (Option N4Node)) (rels : List (Option N4Rel)) : GD :=
  let nds := collectNodes conv nodes []
  let node_ids := nds.map (·.id)
  ⟨nds, collectPathRels node_ids rels⟩

/-- One entry of a tool result's `content` list. -/
structure ContentItem where
  type : String
  text : String

/-- A tool's structured return value; `isError = false` models the
absence of the `"is_error"` key. -/
structure ToolResult where
  content : List ContentItem
  isError : Bool

/-- A success payload: `{"content": [{"type": "text", "text": t}]}`. -/
def okRes (t : String) : ToolResult := ⟨[⟨"text", t⟩], false⟩

/-- An error payload: `{"content": [...], "is_error": True}`. -/
def errRes (t : String) : ToolResult := ⟨[⟨"text", t⟩], true⟩

/-- A `NodeDict` as a JSON value. -/
def nodeDictToPVal (n : NodeDict) : PVal :=
  .pdict [("id", .pstr n.id), ("labels", .plist (n.labels.map .pstr)),
    ("properties", .pdict n.properties)]

/-- A `RelDict` as a JSON value. -/
def relDictToPVal (r : RelDict) : PVal :=
  .pdict [("id", .pstr r.id), ("type", .pstr r.type),
    ("startNodeId", .pstr r.startNodeId), ("endNodeId", .pstr r.endNodeId),
    ("properties", .pdict r.properties)]

/-- A `GD` envelope as a JSON value. -/
def gdToPVal (gd : GD) : PVal :=
  .pdict [("nodes", .plist (gd.nodes.map nodeDictToPVal)),
    ("relationships", .plist (gd.relationships.map relDictToPVal))]

/-- The `get_schema` tool (agent.py:93-102); `fetch` is the outcome of
`SchemaService.get_schema()` seen at the tool boundary. -/
def get_schema_tool (fetch : Except PyErr PropMap) : ToolResult :=
  match fetch with
  | .ok schema => okRes (dumpsVal 0 (.pdict schema))
  | .error e => errRes ("Error getting schema: " ++ e.msg)

/-- The `explore_nodes` tool (agent.py:110-130); `fetch` is the outcome
of `context_graph_client.get_graph_data(...)`. -/
def explore_nodes_tool (fetch : Except PyErr (Option GraphData)) : ToolResult :=
  match fetch with
  | .ok graph_data =>
    let gd := graph_data_to_dict graph_data
    okRes (dumpsVal 0 (.pdict [("graph_data", gdToPVal gd),
      ("node_count", .pint gd.nodes.length),
      ("relationship_count", .pint gd.relationships.length)]))
  | .error e => errRes ("Error exploring nodes: " ++ e.msg)

/-- The body of `search_nodes` inside its `try` (agent.py:140-214):
`sessionOpen` is the session acquisition, `runRes` the outcome of
`session.run(...).single()` (`none` = no record). -/
def search_nodes_body (sessionOpen : Except PyErr Unit)
    (runRes : Except PyErr (Option N4Record)) (conv : PropMap → PropMap) :
    Except PyErr ToolResult := do
  let _ ← sessionOpen
  let record ← runRes
  match record with
  | none =>
    pure (okRes (dumpsVal 0 (.pdict [("graph_data",
      .pdict [("nodes", .plist []), ("relationships", .plist [])])])))
  | some r =>
    let gd := search_graph_data conv r
    pure (okRes (dumpsVal 0 (.pdict [("graph_data", gdToPVal gd),
      ("node_count", .pint gd.nodes.length),
      ("relationship_count", .pint gd.relationships.length)])))

/-- The `search_nodes` tool (agent.py:138-219). -/
def search_nodes_tool (sessionOpen : Except PyErr Unit)
    (runRes : Except PyErr (Option N4Record)) (conv : PropMap → PropMap) : ToolResult :=
  match search_nodes_body sessionOpen runRes conv with
  | .ok r => r
  | .error e => errRes ("Error searching nodes: " ++ e.msg)

/-- `json.dumps` text of the "No path found." result (agent.py:253-264). -/
def noPathText : String :=
  dumpsVal 0 (.pdict [("paths_found", .pint 0),
    ("graph_data", .pdict [("nodes", .plist []), ("relationships", .plist [])]),
    ("message", .pstr "No path found.")])

/-- The body of `find_paths` inside its `try` (agent.py:229-292). -/
def find_paths_body (sessionOpen : Except PyErr Unit)
    (runRes : Except PyErr (Option N4Record)) (conv : PropMap → PropMap) :
    Except PyErr ToolResult := do
  let _ ← sessionOpen
  let record ← runRes
  match record with
  | none => pure (okRes noPathText)
  | some r =>
    match r.nodes with
    | none => pure (okRes noPathText)
    | some [] => pure (okRes noPathText)
    | some (n₀ :: nrest) =>
      let gd := find_paths_graph_data conv (n₀ :: nrest) (r.rels.getD [])
      let path_length : Int :=
        match r.rels with
        | none => 0
        | some [] => 0
        | some l => l.length
      pure (okRes (dumpsVal 0 (.pdict [("paths_found", .pint 1),
        ("path_length", .pint path_length), ("graph_data", gdToPVal gd)])))

/-- The `find_paths` tool (agent.py:227-297). -/
def find_paths_tool (sessionOpen : Except PyErr Unit)
    (runRes : Except PyErr (Option N4Record)) (conv : PropMap → PropMap) : ToolResult :=
  match find_paths_body sessionOpen runRes conv with
  | .ok r => r
  | .error e => errRes ("Error finding paths: " ++ e.msg)

/-- The external-call outcomes `analyze_patterns` can consume: session
acquisition, the two overview queries, the degree query (its single
record, as serialized), the `SchemaService.get_schema()` call, and the
per-label sample query (each record's `"n"` node). -/
structure PatternsEnv where
  sessionOpen : Except PyErr Unit
  nodeCountsRun : Except PyErr PVal
  relCountsRun : Except PyErr PVal
  degreeRun : Except PyErr PVal
  schemaFetch : Except PyErr SchemaDoc
  sampleRun : String → Except PyErr (List N4Node)

/-- The sample loop of `analyze_patterns` (agent.py:334-338). -/
def collectSamples (run : String → Except PyErr (List N4Node)) :
    List String → Except PyErr (List PVal)
  | [] => pure []
  | label :: rest => do
    let ns ← run label
    let here := ns.map (fun n => PVal.pdict [("label", .pstr label),
      ("id", .pstr n.element_id), ("properties", .pdict (slim_properties n.props))])
    let more ← collectSamples run rest
    pure (here ++ more)

/-- The error text of the unknown-`pattern_type` branch (agent.py:342),
before JSON encoding. -/
def unknownPatternMsg (pattern_type : String) : String :=
  "Unknown pattern_type: " ++ pattern_type ++ ". Use 'overview', 'degree', or 'sample'."

/-- The body of `analyze_patterns` inside its `try` (agent.py:307-344).
The unknown-`pattern_type` branch returns an error-flagged result
without raising. -/
def analyze_patterns_body (pattern_type : String) (env : PatternsEnv) :
    Except PyErr ToolResult := do
  let _ ← env.sessionOpen
  if pattern_type = "overview" then
    let nc ← env.nodeCountsRun
    let rc ← env.relCountsRun
    pure (okRes (dumpsVal 0 (.pdict [("node_counts", nc), ("relationship_counts", rc)])))
  else if pattern_type = "degree" then
    let dist ← env.degreeRun
    pure (okRes (dumpsVal 0 dist))
  else if pattern_type = "sample" then
    let schema ← env.schemaFetch
    let labels := getStrs schema "node_labels"
    let samples ← collectSamples env.sampleRun (labels.take 10)
    pure (okRes (dumpsVal 0 (.pdict [("samples_by_label", .plist samples)])))
  else
    pure (errRes (dumpsCompact (.pdict [("error", .pstr (unknownPatternMsg pattern_type))])))

/-- The `analyze_patterns` tool (agent.py:305-349). -/
def analyze_patterns_tool (pattern_type : String) (env : PatternsEnv) : ToolResult :=
  match analyze_patterns_body pattern_type env with
  | .ok r => r
  | .error e => errRes ("Error analyzing patterns: " ++ e.msg)

/-- `dict(...)` applied to a list, as in `execute_cypher`'s parameter
fallback: every element must be a two-element key/value sequence (keys
are the strings Cypher parameters use); later pairs overwrite earlier
ones.  Failure models the `(ValueError, TypeError)` the code catches. -/
def tryDictOfPairs : List PVal → PropMap → Option PropMap
  | [], acc => some acc
  | .plist [.pstr k, v] :: rest, acc =>
    if acc.any (·.1 = k) then
      tryDictOfPairs rest (acc.map (fun kv => if kv.1 = k then (k, v) else kv))
    else tryDictOfPairs rest (acc ++ [(k, v)])
  | _, _ => none

/-- The parameter normalization of `execute_cypher` (agent.py:360-368):
a dict passes through, a truthy list goes through `dict(...)` with `{}`
on failure, everything else leaves `params = {}`. -/
def execute_cypher_params (raw_params : Option PVal) : PropMap :=
  match raw_params with
  | some (.pdict d) => d
  | some (.plist l) => if l.isEmpty then [] else (tryDictOfPairs l []).getD []
  | _ => []

/-- The `execute_cypher` tool (agent.py:357-380); `exec` is
`context_graph_client.execute_cypher`, whose read-only gate raises
`ValueError` for disallowed statements. -/
def execute_cypher_tool (raw_params : Option PVal)
    (exec : PropMap → Except PyErr PVal) : ToolResult :=
  match exec (execute_cypher_params raw_params) with
  | .ok results => okRes (dumpsVal 0 results)
  | .error e =>
    if e.isValueError then errRes ("Query not allowed: " ++ e.msg)
    else errRes ("Error executing query: " ++ e.msg)

theorem contains_mem {l : List String} {a : String} (h : l.contains a = true) : a ∈ l := by
  simpa using h

theorem mem_collectRels (ids : List String) :
    ∀ {l : List (Option N4Rel)} {seen : List String} {r : RelDict},
      r ∈ collectRels ids l seen →
      ids.contains r.startNodeId = true ∧ ids.contains r.endNodeId = true := by
  intro l
  induction l with
  | nil =>
    intro seen r h
    simp [collectRels] at h
  | cons x rest ih =>
    intro seen r h
    cases x with
    | none =>
      simp only [collectRels] at h
      exact ih h
    | some rl =>
      simp only [collectRels] at h
      split at h
      · exact ih h
      · split at h
        · rcases List.mem_cons.mp h with heq | htail
          · subst heq
            rename_i hcond
            simp only [Bool.and_eq_true] at hcond
            exact hcond
          · exact ih htail
        · exact ih h

theorem mem_collectPathRels (ids : List String) :
    ∀ {l : List (Option N4Rel)} {r : RelDict},
      r ∈ collectPathRels ids l →
      ids.contains r.startNodeId = true ∧ ids.contains r.endNodeId = true := by
  intro l
  induction l with
  | nil =>
    intro r h
    simp [collectPathRels] at h
  | cons x rest ih =>
    intro r h
    cases x with
    | none =>
      simp only [collectPathRels] at h
      exact ih h
    | some rl =>
      simp only [collectPathRels] at h
      split at h
      · rcases List.mem_cons.mp h with heq | htail
        · subst heq
          rename_i hcond
          simp only [Bool.and_eq_true] at hcond
          exact hcond
        · exact ih htail
      · exact ih h

theorem exists_of_contains_map_id (nodes : List NodeDict) {a : String}
    (h : (nodes.map (·.id)).contains a = true) : ∃ n ∈ nodes, n.id = a := by
  have := contains_mem h
  rw [List.mem_map] at this
  obtain ⟨n, hn, hid⟩ := this
  exact ⟨n, hn, hid⟩

/-- C1: every relationship serialized by `graph_data_to_dict`, by
`search_nodes`'s envelope builder, or by `find_paths`'s envelope
builder has both its `startNodeId` and its `endNodeId` equal to the
`id` of some node of the same envelope: dangling relationships are
filtered out before serialization. -/
theorem claim_C1_no_dangling_relationships :
    (∀ g, ∀ r ∈ (graph_data_to_dict g).relationships,
      (∃ n ∈ (graph_data_to_dict g).nodes, n.id = r.startNodeId) ∧
      (∃ n ∈ (graph_data_to_dict g).nodes, n.id = r.endNodeId))
    ∧ (∀ conv record, ∀ r ∈ (search_graph_data conv record).relationships,
      (∃ n ∈ (search_graph_data conv record).nodes, n.id = r.startNodeId) ∧
      (∃ n ∈ (search_graph_data conv record).nodes, n.id = r.endNodeId))
    ∧ (∀ conv ns rels, ∀ r ∈ (find_paths_graph_data conv ns rels).relationships,
      (∃ n ∈ (find_paths_graph_data conv ns rels).nodes, n.id = r.startNodeId) ∧
      (∃ n ∈ (find_paths_graph_data conv ns rels).nodes, n.id = r.endNodeId)) := by
  refine ⟨?_, ?_, ?_⟩
  · intro g r hr
    cases g with
    | none => simp [graph_data_to_dict] at hr
    | some gd =>
      simp only [graph_data_to_dict, List.mem_map, List.mem_filter] at hr
      obtain ⟨r₀, ⟨hr₀, hcond⟩, rfl⟩ := hr
      simp only [Bool.and_eq_true] at hcond
      obtain ⟨hs, he⟩ := hcond
      constructor
      · obtain ⟨n₀, hn₀, hid⟩ := exists_of_contains_map_id
          (gd.nodes.map (fun n => NodeDict.mk n.id n.labels (slim_properties n.properties)))
          (by simpa [List.map_map, Function.comp] using hs)
        exact ⟨n₀, by simpa [graph_data_to_dict] using hn₀, hid⟩
      · obtain ⟨n₀, hn₀, hid⟩ := exists_of_contains_map_id
          (gd.nodes.map (fun n => NodeDict.mk n.id n.labels (slim_properties n.properties)))
          (by simpa [List.map_map, Function.comp] using he)
        exact ⟨n₀, by simpa [graph_data_to_dict] using hn₀, hid⟩
  · intro conv record r hr
    have h := mem_collectRels ((collectNodes conv (record.nodes.getD []) []).map (·.id))
      (by simpa [search_graph_data] using hr)
    exact ⟨by simpa [search_graph_data] using exists_of_contains_map_id _ h.1,
      by simpa [search_graph_data] using exists_of_contains_map_id _ h.2⟩
  · intro conv ns rels r hr
    have h := mem_collectPathRels ((collectNodes conv ns []).map (·.id))
      (by simpa [find_paths_graph_data] using hr)
    exact ⟨by simpa [find_paths_graph_data] using exists_of_contains_map_id _ h.1,
      by simpa [find_paths_graph_data] using exists_of_contains_map_id _ h.2⟩

/-- A one-node, one-relationship graph for exercising C1. -/
def gdEx : GraphData := ⟨[⟨"a", [], []⟩], [⟨"r1", "T", "a", "a", []⟩]⟩

theorem claim_C1_witness :
    (∃ n ∈ (graph_data_to_dict (some gdEx)).nodes, n.id = "a") ∧
    (∃ n ∈ (graph_data_to_dict (some gdEx)).nodes, n.id = "a") := by
  have hmem : RelDict.mk "r1" "T" "a" "a" [] ∈ (graph_data_to_dict (some gdEx)).relationships := by
    simp [graph_data_to_dict, gdEx, slim_properties]
  exact claim_C1_no_dangling_relationships.1 (some gdEx) (RelDict.mk "r1" "T" "a" "a" []) hmem

/-- The shape C3 requires of a caught-exception result:
`{"content": [{"type": "text", "text": ...}], "is_error": True}`. -/
def errorShaped (r : ToolResult) : Prop :=
  r.isError = true ∧ ∃ t, r.content = [⟨"text", t⟩]

theorem errorShaped_errRes (t : String) : errorShaped (errRes t) := ⟨rfl, t, rfl⟩

theorem search_nodes_body_error {sessionOpen : Except PyErr Unit}
    {runRes : Except PyErr (Option N4Record)} {conv : PropMap → PropMap} {e : PyErr}
    (h : sessionOpen = Except.error e ∨ runRes = Except.error e) :
    ∃ e₂, search_nodes_body sessionOpen runRes conv = .error e₂ := by
  cases sessionOpen with
  | error e₀ => exact ⟨e₀, rfl⟩
  | ok u =>
    rcases h with h | h
    · cases h
    · subst h
      exact ⟨e, rfl⟩

theorem find_paths_body_error {sessionOpen : Except PyErr Unit}
    {runRes : Except PyErr (Option N4Record)} {conv : PropMap → PropMap} {e : PyErr}
    (h : sessionOpen = Except.error e ∨ runRes = Except.error e) :
    ∃ e₂, find_paths_body sessionOpen runRes conv = .error e₂ := by
  cases sessionOpen with
  | error e₀ => exact ⟨e₀, rfl⟩
  | ok u =>
    rcases h with h | h
    · cases h
    · subst h
      exact ⟨e, rfl⟩

/-- C3: every tool converts an exception from the underlying graph
client or schema service into the structured shape
`{"content": [{"type": "text", "text": ...}], "is_error": True}`
instead of propagating it (each embedded tool is a total function into
`ToolResult`, so no call raises to the agent runtime). -/
theorem claim_C3_tools_catch_exceptions :
    (∀ e, errorShaped (get_schema_tool (.error e)))
    ∧ (∀ e, errorShaped (explore_nodes_tool (.error e)))
    ∧ (∀ sessionOpen runRes conv e,
        (sessionOpen = Except.error e ∨ runRes = Except.error e) →
        errorShaped (search_nodes_tool sessionOpen runRes conv))
    ∧ (∀ sessionOpen runRes conv e,
        (sessionOpen = Except.error e ∨ runRes = Except.error e) →
        errorShaped (find_paths_tool sessionOpen runRes conv))
    ∧ (∀ pattern_type env e, analyze_patterns_body pattern_type env = .error e →
        errorShaped (analyze_patterns_tool pattern_type env))
    ∧ (∀ raw_params exec e, exec (execute_cypher_params raw_params) = .error e →
        errorShaped (execute_cypher_tool raw_params exec)) := by
  refine ⟨?_, ?_, ?_, ?_, ?_, ?_⟩
  · intro e
    exact errorShaped_errRes _
  · intro e
    exact errorShaped_errRes _
  · intro sessionOpen runRes conv e h
    obtain ⟨e₂, he⟩ := search_nodes_body_error h
    unfold search_nodes_tool
    rw [he]
    exact errorShaped_errRes _
  · intro sessionOpen runRes conv e h
    obtain ⟨e₂, he⟩ := find_paths_body_error h
    unfold find_paths_tool
    rw [he]
    exact errorShaped_errRes _
  · intro pattern_type env e h
    unfold analyze_patterns_tool
    rw [h]
    exact errorShaped_errRes _
  · intro raw_params exec e h
    unfold execute_cypher_tool
    rw [h]
    by_cases hv : e.isValueError = true
    · simpa [hv] using errorShaped_errRes ("Query not allowed: " ++ e.msg)
    · simpa [hv] using errorShaped_errRes ("Error executing query: " ++ e.msg)

/-- An environment where every external call fails. -/
def envErrEx : PatternsEnv :=
  ⟨.error ⟨false, "boom"⟩, .error ⟨false, "boom"⟩, .error ⟨false, "boom"⟩,
    .error ⟨false, "boom"⟩, .error ⟨false, "boom"⟩, fun _ => .error ⟨false, "boom"⟩⟩

theorem claim_C3_witness :
    errorShaped (get_schema_tool (.error ⟨false, "boom"⟩))
    ∧ errorShaped (explore_nodes_tool (.error ⟨false, "boom"⟩))
    ∧ errorShaped (search_nodes_tool (.error ⟨false, "boom"⟩) (.ok none) id)
    ∧ errorShaped (find_paths_tool (.ok ()) (.error ⟨false, "boom"⟩) id)
    ∧ errorShaped (analyze_patterns_tool "overview" envErrEx)
    ∧ errorShaped (execute_cypher_tool none (fun _ => .error ⟨false, "boom"⟩)) := by
  refine ⟨claim_C3_tools_catch_exceptions.1 _,
    claim_C3_tools_catch_exceptions.2.1 _,
    claim_C3_tools_catch_exceptions.2.2.1 _ _ id ⟨false, "boom"⟩ (Or.inl rfl),
    claim_C3_tools_catch_exceptions.2.2.2.1 _ _ id ⟨false, "boom"⟩ (Or.inr rfl),
    claim_C3_tools_catch_exceptions.2.2.2.2.1 "overview" envErrEx ⟨false, "boom"⟩ rfl,
    claim_C3_tools_catch_exceptions.2.2.2.2.2 none _ ⟨false, "boom"⟩ rfl⟩

theorem jsonEscape_data_append (a b : String) :
    (jsonEscape (a ++ b)).data = (jsonEscape a).data ++ (jsonEscape b).data := by
  show ((a ++ b).data.map (fun c => (escapeChar c).data)).join
      = (a.data.map (fun c => (escapeChar c).data)).join
        ++ (b.data.map (fun c => (escapeChar c).data)).join
  rw [String.data_append, List.map_append]
  simp

/-- `needle` occurs as a substring of `hay` (Python `in`). -/
abbrev strContains (hay needle : String) : Prop := needle.data <:+: hay.data

/-- C6: for a `pattern_type` outside overview/degree/sample (and a
session that opens, so the dispatch is reached), `analyze_patterns`
returns the error-flagged unknown-pattern result — it equals `errRes`
of the JSON-encoded message, its `is_error` flag is set, and its text
contains the substring "Unknown pattern_type"; being a total function
it raises nothing. -/
theorem claim_C6_unknown_pattern_type (pattern_type : String) (env : PatternsEnv)
    (hpt : pattern_type ∉ (["overview", "degree", "sample"] : List String))
    (hs : env.sessionOpen = .ok ()) :
    analyze_patterns_tool pattern_type env
      = errRes (dumpsCompact (.pdict [("error", .pstr (unknownPatternMsg pattern_type))]))
    ∧ (analyze_patterns_tool pattern_type env).isError = true
    ∧ ∃ t, (analyze_patterns_tool pattern_type env).content = [⟨"text", t⟩]
        ∧ strContains t "Unknown pattern_type" := by
  simp only [List.mem_cons, List.not_mem_nil, or_false, not_or] at hpt
  obtain ⟨h₁, h₂, h₃⟩ := hpt
  have hres : analyze_patterns_tool pattern_type env
      = errRes (dumpsCompact (.pdict [("error", .pstr (unknownPatternMsg pattern_type))])) := by
    unfold analyze_patterns_tool analyze_patterns_body
    rw [hs]
    simp [h₁, h₂, h₃, Except.bind]
  refine ⟨hres, by rw [hres]; rfl, ?_⟩
  refine ⟨dumpsCompact (.pdict [("error", .pstr (unknownPatternMsg pattern_type))]),
    by rw [hres]; rfl, ?_⟩
  show ("Unknown pattern_type".data) <:+: _
  have hmsg : (jsonEscape (unknownPatternMsg pattern_type)).data
      = (jsonEscape "Unknown pattern_type: ").data
        ++ (jsonEscape pattern_type).data
        ++ (jsonEscape ". Use 'overview', 'degree', or 'sample'.").data := by
    show (jsonEscape ("Unknown pattern_type: " ++ pattern_type
      ++ ". Use 'overview', 'degree', or 'sample'.")).data = _
    rw [jsonEscape_data_append, jsonEscape_data_append]
  have hplain : (jsonEscape "Unknown pattern_type: ").data
      = "Unknown pattern_type".data ++ ": ".data := by rfl
  have hdump : (dumpsCompact (.pdict [("error", .pstr (unknownPatternMsg pattern_type))])).data
      = "\x7b\"error\": \"".data
        ++ (jsonEscape (unknownPatternMsg pattern_type)).data ++ "\"\x7d".data := by
    rw [show dumpsCompact (.pdict [("error", .pstr (unknownPatternMsg pattern_type))])
        = "\x7b" ++ ("\"" ++ jsonEscape "error" ++ "\": "
          ++ ("\"" ++ jsonEscape (unknownPatternMsg pattern_type) ++ "\"")) ++ "\x7d" from by
      simp [dumpsCompact, dumpsCompactFields]]
    simp only [String.data_append, List.append_assoc]
    rfl
  rw [hdump, hmsg, hplain]
  refine ⟨"\x7b\"error\": \"".data, ": ".data ++ ((jsonEscape pattern_type).data
    ++ (jsonEscape ". Use 'overview', 'degree', or 'sample'.").data ++ "\"\x7d".data), ?_⟩
  simp [List.append_assoc]

theorem claim_C6_witness :
    analyze_patterns_tool "bogus" ⟨.ok (), .ok .pnull, .ok .pnull, .ok .pnull, .ok [],
        fun _ => .ok []⟩
      = errRes (dumpsCompact (.pdict [("error", .pstr (unknownPatternMsg "bogus"))])) := by
  exact (claim_C6_unknown_pattern_type "bogus" _ (by decide) rfl).1

/-- The schema document of C5's concrete example: only
`node_labels=["Person"]` and `node_counts={"Person": 5}`. -/
def personSchema : SchemaDoc :=
  [("node_labels", .sStrs ["Person"]), ("node_counts", .sCounts [("Person", 5)])]

/-- C5: `get_schema_summary` renders the not-available text on an empty
schema mapping, renders "Empty schema." on a non-empty mapping whose
recognized sections are all absent or empty, and on the
`Person`-only example produces a labels section with the line
"- Person: 5 nodes" and no relationship, pattern, or property
section. -/
theorem claim_C5_schema_summary :
    get_schema_summary_of [] = "Schema not available. Use get_schema tool to fetch it."
    ∧ (∀ schema : SchemaDoc, schema ≠ [] →
        getStrs schema "node_labels" = [] →
        getStrs schema "relationship_types" = [] →
        getPats schema "relationship_patterns" = [] →
        getStrs schema "property_keys" = [] →
        get_schema_summary_of schema = "Empty schema.")
    ∧ (strContains (get_schema_summary_of personSchema) "- Person: 5 nodes"
       ∧ strContains (get_schema_summary_of personSchema) "## Node Labels (with counts)"
       ∧ ¬ strContains (get_schema_summary_of personSchema) "## Relationship Types"
       ∧ ¬ strContains (get_schema_summary_of personSchema) "## Relationship Patterns"
       ∧ ¬ strContains (get_schema_summary_of personSchema) "## Property Keys") := by
  refine ⟨rfl, ?_, ?_⟩
  · intro schema hne h₁ h₂ h₃ h₄
    have hempty : schema.isEmpty = false := by
      cases schema with
      | nil => exact absurd rfl hne
      | cons x xs => rfl
    simp [get_schema_summary_of, hempty, h₁, h₂, h₃, h₄]
  · refine ⟨?_, ?_, ?_, ?_, ?_⟩ <;> decide

theorem claim_C5_witness :
    get_schema_summary_of [("node_counts", SchemaVal.sCounts [("X", 1)])] = "Empty schema." := by
  exact claim_C5_schema_summary.2.1 [("node_counts", SchemaVal.sCounts [("X", 1)])]
    (by decide) rfl rfl rfl rfl

/-- C8: when `SchemaService.refresh` fails while a prior cached schema
exists, the cached value is unchanged (and the cache timestamp too),
the failure is re-raised as a `RuntimeError`, and a subsequent
`get_schema` returns the stale value without consulting the fetcher. -/
theorem claim_C8_refresh_failure_keeps_cache (st : SchemaCache) (s : SchemaDoc)
    (e : PyErr) (now : Nat) (h : st.cache = some s) :
    (SchemaService.refresh st (.error e) now).1.cache = some s
    ∧ (SchemaService.refresh st (.error e) now).1.cache_time = st.cache_time
    ∧ (SchemaService.refresh st (.error e) now).2
        = .error ("Failed to refresh schema: " ++ e.msg)
    ∧ (∀ fetched now₂,
        (SchemaService.get_schema (SchemaService.refresh st (.error e) now).1 fetched now₂).1
          = .ok s) := by
  refine ⟨?_, rfl, rfl, ?_⟩
  · simp [SchemaService.refresh, h]
  · intro fetched now₂
    simp [SchemaService.get_schema, SchemaService.refresh, h]

theorem claim_C8_witness :
    (SchemaService.refresh ⟨some personSchema, some 7⟩ (.error ⟨false, "down"⟩) 9).1.cache
      = some personSchema
    ∧ (SchemaService.get_schema
        (SchemaService.refresh ⟨some personSchema, some 7⟩ (.error ⟨false, "down"⟩) 9).1
        (.error ⟨false, "down"⟩) 10).1 = .ok personSchema := by
  have h := claim_C8_refresh_failure_keeps_cache ⟨some personSchema, some 7⟩ personSchema
    ⟨false, "down"⟩ 9 rfl
  exact ⟨h.1, h.2.2.2 (.error ⟨false, "down"⟩) 10⟩

/- ============================================================
   Flow-tool overrides (agent.py:405-419) and the Flow store
   (src/backend/app/flow_store.py).  The MySQL `flows` table is a list
   of rows; `datetime.now()` values are the `now` arguments.
   ============================================================ -/

/-- `agent.TOOL_TO_MCP` (agent.py:405-412), in insertion order. -/
def TOOL_TO_MCP : List (String × String) :=
  [("get_schema", "mcp__graph__get_schema"),
   ("explore_nodes", "mcp__graph__explore_nodes"),
   ("search_nodes", "mcp__graph__search_nodes"),
   ("find_paths", "mcp__graph__find_paths"),
   ("analyze_patterns", "mcp__graph__analyze_patterns"),
   ("execute_cypher", "mcp__graph__execute_cypher")]

/-- `TOOL_TO_MCP[t]` / `t in TOOL_TO_MCP` as one lookup. -/
def toolLookup (t : String) : Option String :=
  (TOOL_TO_MCP.find? (·.1 = t)).map (·.2)

/-- `agent._allowed_tools_from_enabled` (agent.py:415-419): `None` or an
empty (falsy) list yields every MCP name; otherwise the comprehension
keeps the recognized names, in order. -/
def _allowed_tools_from_enabled (enabled : Option (List String)) : List String :=
  match enabled with
  | none => TOOL_TO_MCP.map (·.2)
  | some l => if l.isEmpty then TOOL_TO_MCP.map (·.2) else l.filterMap toolLookup

theorem filterMap_eq_map_filter_isSome (f : String → Option String) (l : List String) :
    l.filterMap f = (l.filter (fun t => (f t).isSome)).map (fun t => (f t).getD "") := by
  induction l with
  | nil => rfl
  | cons x xs ih =>
    cases hx : f x with
    | none => simp [List.filterMap_cons, hx, ih]
    | some v => simp [List.filterMap_cons, hx, ih]

/-- C10 (amended): `None` and the empty list both yield all six MCP
tool names (in `TOOL_TO_MCP` order); a non-empty list yields exactly
the MCP names of its recognized entries in order, silently dropping
unknown names — so a non-empty override holding only unknown names
yields an empty tool list. -/
theorem claim_C10_allowed_tools (l : List String) :
    _allowed_tools_from_enabled none
      = ["mcp__graph__get_schema", "mcp__graph__explore_nodes", "mcp__graph__search_nodes",
         "mcp__graph__find_paths", "mcp__graph__analyze_patterns", "mcp__graph__execute_cypher"]
    ∧ _allowed_tools_from_enabled (some []) = _allowed_tools_from_enabled none
    ∧ (l ≠ [] → _allowed_tools_from_enabled (some l)
        = (l.filter (fun t => (toolLookup t).isSome)).map (fun t => (toolLookup t).getD "")) := by
  refine ⟨rfl, rfl, ?_⟩
  intro hne
  have hl : l.isEmpty = false := by
    cases l with
    | nil => exact absurd rfl hne
    | cons x xs => rfl
  simp [_allowed_tools_from_enabled, hl, filterMap_eq_map_filter_isSome]

theorem claim_C10_witness :
    _allowed_tools_from_enabled (some ["execute_cypher", "bogus", "get_schema"])
      = ["mcp__graph__execute_cypher", "mcp__graph__get_schema"] := by
  rw [(claim_C10_allowed_tools ["execute_cypher", "bogus", "get_schema"]).2.2 (by decide)]
  rfl

/-- C10's "a session can never be configured with zero tools" fails: a
non-empty override of only unknown names yields zero tools. -/
theorem claim_C10_counterexample :
    _allowed_tools_from_enabled (some ["bogus"]) = [] := rfl

/-- A row of the `flows` table / a `FlowResponse`
(src/backend/app/flow_store.py:44-59, models/api.py:166-178);
timestamps are abstract instants ordered as `Nat`. -/
structure Flow where
  id : String
  name : String
  graph_source_id : String
  system_prompt : Option String
  enabled_tools : List String
  model_id : String
  published : Bool
  slug : Option String
  created_at : Nat
  updated_at : Nat
  deriving DecidableEq

/-- The `flows` table. -/
abbrev FlowTable := List Flow

/-- `FlowStore.get` (flow_store.py:116-127): `SELECT ... WHERE id = %s`
(first matching row). -/
def flowGet (tbl : FlowTable) (flow_id : String) : Option Flow :=
  tbl.find? (·.id == flow_id)

/-- `FlowStore.publish` (flow_store.py:194-210): run
`UPDATE flows SET published = TRUE, updated_at = now WHERE id = %s`;
when `rowcount` is 0 return `None` (the connection closes uncommitted,
so the table is unchanged), else commit and return `self.get(flow_id)`.
`rowcount` follows MySQL/pymysql default semantics: rows actually
changed by the update. -/
def FlowStore.publish (tbl : FlowTable) (flow_id : String) (now : Nat) :
    FlowTable × Option Flow :=
  let rowcount := (tbl.filter (fun f =>
    f.id == flow_id && (f.published != true || f.updated_at != now))).length
  if rowcount = 0 then (tbl, none)
  else
    let tbl₂ := tbl.map (fun f =>
      if f.id == flow_id then { f with published := true, updated_at := now } else f)
    (tbl₂, flowGet tbl₂ flow_id)

/-- `FlowStore.unpublish` (flow_store.py:212-228): as `publish` with
`published = FALSE`. -/
def FlowStore.unpublish (tbl : FlowTable) (flow_id : String) (now : Nat) :
    FlowTable × Option Flow :=
  let rowcount := (tbl.filter (fun f =>
    f.id == flow_id && (f.published != false || f.updated_at != now))).length
  if rowcount = 0 then (tbl, none)
  else
    let tbl₂ := tbl.map (fun f =>
      if f.id == flow_id then { f with published := false, updated_at := now } else f)
    (tbl₂, flowGet tbl₂ flow_id)

theorem flowGet_map_update {tbl : FlowTable} {flow_id : String} {f : Flow}
    (u : Flow → Flow) (hu : ∀ g, (u g).id = g.id)
    (hf : flowGet tbl flow_id = some f) :
    flowGet (tbl.map (fun g => if g.id == flow_id then u g else g)) flow_id = some (u f) := by
  induction tbl with
  | nil => simp [flowGet] at hf
  | cons g rest ih =>
    by_cases hg : g.id = flow_id
    · have hbeq : (g.id == flow_id) = true := beq_iff_eq.mpr hg
      have : f = g := by
        simp [flowGet, List.find?_cons, hbeq] at hf
        exact hf.symm
      subst this
      simp only [List.map_cons, hbeq, if_true]
      have : ((u f).id == flow_id) = true := beq_iff_eq.mpr (by rw [hu f]; exact hg)
      simp [flowGet, List.find?_cons, this]
    · have hbeq : (g.id == flow_id) = false := beq_eq_false_iff_ne.mpr hg
      have hf₂ : flowGet rest flow_id = some f := by
        simpa [flowGet, List.find?_cons, hbeq] using hf
      simp only [List.map_cons, hbeq, Bool.false_eq_true, if_false]
      simpa [flowGet, List.find?_cons, hbeq] using ih hf₂

theorem filter_length_ne_zero_of_mem {p : Flow → Bool} {tbl : FlowTable} {f : Flow}
    (hmem : f ∈ tbl) (hp : p f = true) : (tbl.filter p).length ≠ 0 := by
  intro h
  rw [List.length_eq_zero] at h
  exact (List.ne_nil_of_mem (List.mem_filter.mpr ⟨hmem, hp⟩)) h

/-- C9 (amended): for a stored flow that is currently unpublished (as
every freshly created flow is — `create` stores `published = False`),
`publish` then `unpublish` returns the flow with `published` back at
its original value, `updated_at` set to each call's time in turn
(non-decreasing under monotone call times), and every other field
unchanged; for an initially published flow the round trip ends
unpublished instead (see the counterexample). -/
theorem claim_C9_publish_unpublish_roundtrip
    (tbl : FlowTable) (flow_id : String) (f : Flow) (now₁ now₂ : Nat)
    (hf : flowGet tbl flow_id = some f)
    (hpub : f.published = false)
    (h₁ : f.updated_at ≤ now₁) (h₂ : now₁ ≤ now₂) :
    (FlowStore.publish tbl flow_id now₁).2
      = some { f with published := true, updated_at := now₁ }
    ∧ (FlowStore.unpublish (FlowStore.publish tbl flow_id now₁).1 flow_id now₂).2
      = some { f with published := false, updated_at := now₂ }
    ∧ ({ f with published := false, updated_at := now₂ } : Flow).published = f.published
    ∧ f.updated_at ≤ now₁ ∧ now₁ ≤ now₂ := by
  have hfmem : f ∈ tbl := List.mem_of_find?_eq_some hf
  have hfid : (f.id == flow_id) = true := by
    have := List.find?_some hf
    simpa using this
  have hchanged₁ : (f.id == flow_id && (f.published != true || f.updated_at != now₁)) = true := by
    rw [hfid, hpub]
    rfl
  have hrc₁ := filter_length_ne_zero_of_mem
    (p := fun g => g.id == flow_id && (g.published != true || g.updated_at != now₁))
    hfmem hchanged₁
  have hpubres : FlowStore.publish tbl flow_id now₁
      = (tbl.map (fun g =>
          if g.id == flow_id then { g with published := true, updated_at := now₁ } else g),
        flowGet (tbl.map (fun g =>
          if g.id == flow_id then { g with published := true, updated_at := now₁ } else g))
          flow_id) := by
    simp only [FlowStore.publish]
    rw [if_neg hrc₁]
  have hget₁ : flowGet (tbl.map (fun g =>
      if g.id == flow_id then { g with published := true, updated_at := now₁ } else g)) flow_id
      = some { f with published := true, updated_at := now₁ } :=
    flowGet_map_update (fun g => { g with published := true, updated_at := now₁ })
      (fun g => rfl) hf
  set f₁ : Flow := { f with published := true, updated_at := now₁ } with hf₁
  set tbl₂ := tbl.map (fun g =>
    if g.id == flow_id then { g with published := true, updated_at := now₁ } else g) with htbl₂
  have hpub2 : (FlowStore.publish tbl flow_id now₁).2 = some f₁ := by rw [hpubres, hget₁]
  have hfst : (FlowStore.publish tbl flow_id now₁).1 = tbl₂ := by rw [hpubres]
  have hfind₁ : List.find? (fun g => g.id == flow_id) tbl₂ = some f₁ := hget₁
  have hf₁mem : f₁ ∈ tbl₂ := List.mem_of_find?_eq_some hfind₁
  have hf₁id : (f₁.id == flow_id) = true := hfid
  have hchanged₂ : (f₁.id == flow_id && (f₁.published != false || f₁.updated_at != now₂)) = true := by
    rw [hf₁id]
    rfl
  have hrc₂ := filter_length_ne_zero_of_mem
    (p := fun g => g.id == flow_id && (g.published != false || g.updated_at != now₂))
    hf₁mem hchanged₂
  have hunp : FlowStore.unpublish tbl₂ flow_id now₂
      = (tbl₂.map (fun g =>
          if g.id == flow_id then { g with published := false, updated_at := now₂ } else g),
        flowGet (tbl₂.map (fun g =>
          if g.id == flow_id then { g with published := false, updated_at := now₂ } else g))
          flow_id) := by
    simp only [FlowStore.unpublish]
    rw [if_neg hrc₂]
  have hget₂ : flowGet (tbl₂.map (fun g =>
      if g.id == flow_id then { g with published := false, updated_at := now₂ } else g)) flow_id
      = some { f₁ with published := false, updated_at := now₂ } :=
    flowGet_map_update (fun g => { g with published := false, updated_at := now₂ })
      (fun g => rfl) hget₁
  refine ⟨hpub2, ?_, by rw [hpub], h₁, h₂⟩
  rw [hfst, hunp, hget₂]

/-- An already-published flow, refuting the unrestricted round trip. -/
def flowPubEx : Flow :=
  ⟨"f1", "Name", "default", none, ["get_schema"], "claude-sonnet-4-20250514",
    true, some "name", 0, 0⟩

/-- C9 as stated is false: for a flow stored with `published = True`,
`publish` then `unpublish` ends with `published = False`, not the
original value. -/
theorem claim_C9_counterexample :
    ((FlowStore.unpublish (FlowStore.publish [flowPubEx] "f1" 1).1 "f1" 2).2).map (·.published)
      = some false
    ∧ flowPubEx.published = true := by decide

theorem claim_C9_witness :
    (FlowStore.publish [{ flowPubEx with published := false }] "f1" 1).2
      = some { flowPubEx with published := true, updated_at := 1 }
    ∧ (FlowStore.unpublish
        (FlowStore.publish [{ flowPubEx with published := false }] "f1" 1).1 "f1" 2).2
      = some { flowPubEx with published := false, updated_at := 2 } := by
  have h := claim_C9_publish_unpublish_roundtrip [{ flowPubEx with published := false }] "f1"
    { flowPubEx with published := false } 1 2 (by decide) rfl (by decide) (by decide)
  exact ⟨h.1, h.2.1⟩

/- ============================================================
   Suggestions service (src/backend/app/suggestions_service.py).
   `json.loads` is modelled by a strict JSON parser over `List Char`
   (fuel-driven); the two `re.search` calls are modelled by direct
   leftmost/lazy scanners equivalent to their patterns.
   ============================================================ -/

/-- A parsed JSON value (`json.loads` result).  Non-integer numerals
(floats, `NaN`, `Infinity`) keep their source text in `jnum`; no claim
exercises Python float formatting. -/
inductive JVal where
  | jnull
  | jbool (b : Bool)
  | jint (n : Int)
  | jnum (raw : String)
  | jstr (s : String)
  | jarr (l : List JVal)
  | jobj (o : List (String × JVal))

/-- JSON whitespace (RFC 8259, what Python's json accepts between tokens). -/
def isJsonWs (c : Char) : Bool := c = ' ' || c = '\t' || c = '\n' || c = '\r'

/-- Skip JSON whitespace. -/
def skipJsonWs (cs : List Char) : List Char := cs.dropWhile isJsonWs

/-- Hex digit value. -/
def hexVal (c : Char) : Option Nat :=
  if '0' ≤ c ∧ c ≤ '9' then some (c.toNat - 48)
  else if 'a' ≤ c ∧ c ≤ 'f' then some (c.toNat - 87)
  else if 'A' ≤ c ∧ c ≤ 'F' then some (c.toNat - 70)
  else none

/-- The code point of a `\uXXXX` escape. -/
def hex4Val (h₁ h₂ h₃ h₄ : Char) : Option Nat := do
  let a ← hexVal h₁
  let b ← hexVal h₂
  let c ← hexVal h₃
  let d ← hexVal h₄
  pure (4096 * a + 256 * b + 16 * c + d)

/-- A scalar `Char` from a code point; a lone surrogate (which Python's
`str` can hold but a Unicode scalar cannot) degrades to U+FFFD. -/
def charOfCode (n : Nat) : Char :=
  if 55296 ≤ n ∧ n ≤ 57343 then Char.ofNat 65533 else Char.ofNat n

/-- The body of a JSON string after the opening quote: returns the
decoded characters and the input after the closing quote.  Strict mode:
raw control characters and unknown escapes fail. -/
def parseStrBody (fuel : Nat) (cs : List Char) : Option (List Char × List Char) :=
  match fuel with
  | 0 => none
  | fuel + 1 =>
    match cs with
    | [] => none
    | '"' :: rest => some ([], rest)
    | '\\' :: '"' :: r => (fun p => ('"' :: p.1, p.2)) <$> parseStrBody fuel r
    | '\\' :: '\\' :: r => (fun p => ('\\' :: p.1, p.2)) <$> parseStrBody fuel r
    | '\\' :: '/' :: r => (fun p => ('/' :: p.1, p.2)) <$> parseStrBody fuel r
    | '\\' :: 'b' :: r => (fun p => (Char.ofNat 8 :: p.1, p.2)) <$> parseStrBody fuel r
    | '\\' :: 'f' :: r => (fun p => (Char.ofNat 12 :: p.1, p.2)) <$> parseStrBody fuel r
    | '\\' :: 'n' :: r => (fun p => ('\n' :: p.1, p.2)) <$> parseStrBody fuel r
    | '\\' :: 'r' :: r => (fun p => ('\r' :: p.1, p.2)) <$> parseStrBody fuel r
    | '\\' :: 't' :: r => (fun p => ('\t' :: p.1, p.2)) <$> parseStrBody fuel r
    | '\\' :: 'u' :: h₁ :: h₂ :: h₃ :: h₄ :: r =>
      match hex4Val h₁ h₂ h₃ h₄ with
      | none => none
      | some n =>
        if 55296 ≤ n ∧ n ≤ 56319 then
          -- high surrogate: try to join a following low surrogate
          match r with
          | '\\' :: 'u' :: g₁ :: g₂ :: g₃ :: g₄ :: r₂ =>
            match hex4Val g₁ g₂ g₃ g₄ with
            | some m =>
              if 56320 ≤ m ∧ m ≤ 57343 then
                (fun p => (Char.ofNat (65536 + 1024 * (n - 55296) + (m - 56320)) :: p.1, p.2)) <$>
                  parseStrBody fuel r₂
              else (fun p => (charOfCode n :: p.1, p.2)) <$> parseStrBody fuel r
            | none => none
          | _ => (fun p => (charOfCode n :: p.1, p.2)) <$> parseStrBody fuel r
        else (fun p => (charOfCode n :: p.1, p.2)) <$> parseStrBody fuel r
    | '\\' :: _ => none
    | c :: rest =>
      if c.toNat < 32 then none
      else (fun p => (c :: p.1, p.2)) <$> parseStrBody fuel rest

/-- Is this an ASCII digit. -/
def isDigitC (c : Char) : Bool := '0' ≤ c && c ≤ '9'

/-- Digits to a natural number. -/
def digitsToNat (ds : List Char) : Nat := ds.foldl (fun a c => 10 * a + (c.toNat - 48)) 0

/-- A JSON number starting at `cs` (after any leading minus has been
checked by the caller); returns the value and the rest.  `frac`/`exp`
parts make it a `jnum` keeping the source text, otherwise `jint`. -/
def parseNumber (cs : List Char) : Option (JVal × List Char) :=
  let (neg, cs₁) := match cs with
    | '-' :: r => (true, r)
    | _ => (false, cs)
  let intPart : Option (List Char × List Char) :=
    match cs₁ with
    | '0' :: r => some (['0'], r)
    | c :: r => if isDigitC c && c ≠ '0' then
        some (c :: r.takeWhile isDigitC, r.dropWhile isDigitC) else none
    | [] => none
  match intPart with
  | none => none
  | some (ds, r₁) =>
    let (fracTxt, r₂) : List Char × List Char :=
      match r₁ with
      | '.' :: fr =>
        if (fr.takeWhile isDigitC).isEmpty then ([], r₁)
        else ('.' :: fr.takeWhile isDigitC, fr.dropWhile isDigitC)
      | _ => ([], r₁)
    let fracBad : Bool := match r₁ with
      | '.' :: fr => (fr.takeWhile isDigitC).isEmpty
      | _ => false
    let (expTxt, r₃) : List Char × List Char :=
      match r₂ with
      | e :: sgn :: er =>
        if (e = 'e' || e = 'E') && (sgn = '+' || sgn = '-') then
          if (er.takeWhile isDigitC).isEmpty then ([], r₂)
          else (e :: sgn :: er.takeWhile isDigitC, er.dropWhile isDigitC)
        else if (e = 'e' || e = 'E') && isDigitC sgn then
          (e :: sgn :: er.takeWhile isDigitC, er.dropWhile isDigitC)
        else ([], r₂)
      | [e] => ([], r₂)
      | [] => ([], r₂)
    let expBad : Bool := match r₂ with
      | e :: sgn :: er =>
        (e = 'e' || e = 'E') &&
          ((sgn = '+' || sgn = '-') && (er.takeWhile isDigitC).isEmpty || !((sgn = '+' || sgn = '-') || isDigitC sgn))
      | [e] => e = 'e' || e = 'E'
      | [] => false
    if fracBad || expBad then none
    else if fracTxt.isEmpty && expTxt.isEmpty then
      some (.jint (if neg then -(digitsToNat ds : Int) else (digitsToNat ds : Int)), r₁)
    else
      some (.jnum ⟨(if neg then ['-'] else []) ++ ds ++ fracTxt ++ expTxt⟩, r₃)

mutual

/-- A JSON value at `cs` (no leading whitespace); returns the rest. -/
def parseVal (fuel : Nat) (cs : List Char) : Option (JVal × List Char) :=
  match fuel with
  | 0 => none
  | fuel + 1 =>
    match cs with
    | '"' :: rest => (fun p => (JVal.jstr ⟨p.1⟩, p.2)) <$> parseStrBody (rest.length + 1) rest
    | '[' :: rest =>
      match skipJsonWs rest with
      | ']' :: r₂ => some (.jarr [], r₂)
      | r₂ => (fun p => (JVal.jarr p.1, p.2)) <$> parseArrItems fuel r₂
    | '{' :: rest =>
      match skipJsonWs rest with
      | '}' :: r₂ => some (.jobj [], r₂)
      | r₂ => (fun p => (JVal.jobj p.1, p.2)) <$> parseObjItems fuel r₂
    | 't' :: 'r' :: 'u' :: 'e' :: rest => some (.jbool true, rest)
    | 'f' :: 'a' :: 'l' :: 's' :: 'e' :: rest => some (.jbool false, rest)
    | 'n' :: 'u' :: 'l' :: 'l' :: rest => some (.jnull, rest)
    | 'N' :: 'a' :: 'N' :: rest => some (.jnum "nan", rest)
    | 'I' :: 'n' :: 'f' :: 'i' :: 'n' :: 'i' :: 't' :: 'y' :: rest => some (.jnum "inf", rest)
    | '-' :: 'I' :: 'n' :: 'f' :: 'i' :: 'n' :: 'i' :: 't' :: 'y' :: rest =>
      some (.jnum "-inf", rest)
    | _ => parseNumber cs

/-- Array items from the first value on; consumes the closing `]`. -/
def parseArrItems (fuel : Nat) (cs : List Char) : Option (List JVal × List Char) :=
  match fuel with
  | 0 => none
  | fuel + 1 =>
    match parseVal fuel cs with
    | none => none
    | some (v, r) =>
      match skipJsonWs r with
      | ',' :: r₂ =>
        (fun p => (v :: p.1, p.2)) <$> parseArrItems fuel (skipJsonWs r₂)
      | ']' :: r₂ => some ([v], r₂)
      | _ => none

/-- Object fields from the first key on; consumes the closing `}`. -/
def parseObjItems (fuel : Nat) (cs : List Char) : Option (List (String × JVal) × List Char) :=
  match fuel with
  | 0 => none
  | fuel + 1 =>
    match cs with
    | '"' :: rest =>
      match parseStrBody (rest.length + 1) rest with
      | none => none
      | some (key, r) =>
        match skipJsonWs r with
        | ':' :: r₂ =>
          match parseVal fuel (skipJsonWs r₂) with
          | none => none
          | some (v, r₃) =>
            match skipJsonWs r₃ with
            | ',' :: r₄ =>
              (fun p => ((⟨key⟩, v) :: p.1, p.2)) <$> parseObjItems fuel (skipJsonWs r₄)
            | '}' :: r₄ => some ([(⟨key⟩, v)], r₄)
            | _ => none
        | _ => none
    | _ => none

end

/-- `json.loads` on a string: parse one value with whitespace allowed
around it; anything left over ("Extra data") fails. -/
def json_loads (s : String) : Option JVal :=
  match parseVal (2 * s.data.length + 2) (skipJsonWs s.data) with
  | some (v, rest) => if (skipJsonWs rest).isEmpty then some v else none
  | none => none

mutual

/-- Python `str(v)` of a parsed JSON value: strings unwrapped, `True`/
`False`/`None` spelled as in Python, containers via `repr`.  Float
formatting is approximated by the kept source text. -/
def pyStrJ : JVal → String
  | .jstr s => s
  | .jint n => toString n
  | .jbool true => "True"
  | .jbool false => "False"
  | .jnull => "None"
  | .jnum raw => raw
  | .jarr l => pyReprJ (.jarr l)
  | .jobj o => pyReprJ (.jobj o)
termination_by v => sizeOf v + 1
decreasing_by all_goals (simp_wf <;> omega)

/-- Python `repr` of a parsed JSON value (single-quoted strings,
quoting of special characters not modelled; no claim exercises it). -/
def pyReprJ : JVal → String
  | .jstr s => "'" ++ s ++ "'"
  | .jint n => toString n
  | .jbool true => "True"
  | .jbool false => "False"
  | .jnull => "None"
  | .jnum raw => raw
  | .jarr [] => "[]"
  | .jarr (x :: xs) => "[" ++ pyReprItems x xs ++ "]"
  | .jobj [] => "\x7b\x7d"
  | .jobj (kv :: kvs) => "\x7b" ++ pyReprFields kv kvs ++ "\x7d"
termination_by v => sizeOf v
decreasing_by all_goals (simp_wf <;> omega)

/-- Comma-separated `repr` items. -/
def pyReprItems (x : JVal) : List JVal → String
  | [] => pyReprJ x
  | y :: ys => pyReprJ x ++ ", " ++ pyReprItems y ys
termination_by xs => 1 + sizeOf x + sizeOf xs
decreasing_by all_goals (simp_wf <;> omega)

/-- Comma-separated `repr` fields. -/
def pyReprFields : String × JVal → List (String × JVal) → String
  | (k, v), [] => "'" ++ k ++ "': " ++ pyReprJ v
  | (k, v), kv₂ :: kvs => "'" ++ k ++ "': " ++ pyReprJ v ++ ", " ++ pyReprFields kv₂ kvs
termination_by kv kvs => 1 + sizeOf kv + sizeOf kvs
decreasing_by all_goals (simp_wf <;> omega)

end

/-- Python string slicing `s[:n]`. -/
def pyTake (n : Nat) (s : String) : String := ⟨s.data.take n⟩

/-- ASCII whitespace as stripped by `str.strip()` and matched by the
regex class `\s` (the non-ASCII Unicode whitespace both also cover is
not modelled; no claim exercises it). -/
def isPySpace (c : Char) : Bool :=
  c = ' ' || c = '\t' || c = '\n' || c = '\r' || c = Char.ofNat 11 || c = Char.ofNat 12

/-- Python `s.strip()`. -/
def pyStrip (s : String) : String :=
  ⟨((s.data.dropWhile isPySpace).reverse.dropWhile isPySpace).reverse⟩

/-- After a candidate `]`, does `\s*` followed by three backticks
complete the fenced-block pattern? -/
def fencedTailOk (cs : List Char) : Bool :=
  "```".data.isPrefixOf (cs.dropWhile isPySpace)

/-- The lazy `[\s\S]*?\]` of the fenced-block regex: take characters up
to the first `]` whose tail completes the pattern; returns the group
content from after `[` through that `]`. -/
def lazyClose : List Char → List Char → Option (List Char)
  | [], _ => none
  | ']' :: rest, acc =>
    if fencedTailOk rest then some (acc.reverse ++ [']'])
    else lazyClose rest (']' :: acc)
  | c :: rest, acc => lazyClose rest (c :: acc)

/-- A match of ``` ```(?:json)?\s*(\[[\s\S]*?\])\s*``` ``` anchored at
`cs` (the regex's alternatives collapse to this deterministic reading:
after the backticks a literal `json` is consumed when present, then
maximal whitespace, then `[` must follow). -/
def fencedAt (cs : List Char) : Option (List Char) :=
  if "```".data.isPrefixOf cs then
    let r₁ := cs.drop 3
    let r₂ := if "json".data.isPrefixOf r₁ then r₁.drop 4 else r₁
    match r₂.dropWhile isPySpace with
    | '[' :: rest =>
      match lazyClose rest [] with
      | some content => some ('[' :: content)
      | none => none
    | _ => none
  else none

/-- `re.search` of the fenced-block pattern: leftmost match. -/
def fencedSearch : List Char → Option (List Char)
  | [] => none
  | c :: rest =>
    match fencedAt (c :: rest) with
    | some g => some g
    | none => fencedSearch rest

/-- `re.search(r"\[[\s\S]*?\]", text)`: from the first `[`, lazily up
to the first following `]` (if the first `[` has no `]` after it, no
later one has either). -/
def bracketSearch (cs : List Char) : Option (List Char) :=
  match cs.dropWhile (· ≠ '[') with
  | '[' :: rest =>
    if rest.any (· = ']') then some ('[' :: rest.takeWhile (· ≠ ']') ++ [']'])
    else none
  | _ => none

/-- `suggestions_service.DEFAULT_QUESTIONS` (suggestions_service.py:18-22). -/
def DEFAULT_QUESTIONS : List String :=
  ["当前图谱中有哪些核心节点？",
   "图中各类型节点和关系的分布如何？",
   "图中最大深度的节点有哪些？"]

/-- The common acceptance step of `_parse_questions_from_text`: a
parsed value is used only when it is a list with at least one entry,
each kept entry being `str(q)[:80]` of one of the first three. -/
def tryArr (o : Option JVal) : Option (List String) :=
  match o with
  | some (.jarr l) =>
    if 1 ≤ l.length then some ((l.take 3).map (fun q => pyTake 80 (pyStrJ q))) else none
  | _ => none

/-- `suggestions_service._parse_questions_from_text`
(suggestions_service.py:46-75): direct JSON parse of the stripped text,
then the fenced-code-block regex, then the bare-array regex, in that
order; `None` when all fail. -/
def _parse_questions_from_text (text : String) : Option (List String) :=
  if text.data.isEmpty || (pyStrip text).data.isEmpty then none
  else
    match tryArr (json_loads (pyStrip text)) with
    | some qs => some qs
    | none =>
      match (fencedSearch text.data).bind (fun g => tryArr (json_loads ⟨g⟩)) with
      | some qs => some qs
      | none => (bracketSearch text.data).bind (fun g => tryArr (json_loads ⟨g⟩))

/-- The `while len(questions) < 3` pad loop of
`generate_suggested_questions` (suggestions_service.py:140-141), with
enough fuel to reach length 3 from any start. -/
def padQuestions : Nat → List String → List String
  | 0, qs => qs
  | n + 1, qs =>
    if qs.length < 3 then padQuestions n (qs ++ [DEFAULT_QUESTIONS.getD qs.length ""])
    else qs

/-- The post-parse logic of `generate_suggested_questions`
(suggestions_service.py:137-143): a truthy parse is padded to 3 with
the defaults in index order and truncated to 3; otherwise the default
list is returned. -/
def questions_from_text (text : String) : List String :=
  match _parse_questions_from_text text with
  | some qs => if qs.isEmpty then DEFAULT_QUESTIONS else (padQuestions 3 qs).take 3
  | none => DEFAULT_QUESTIONS

theorem tryArr_bound {o : Option JVal} {qs : List String} (h : tryArr o = some qs) :
    qs.length ≤ 3 ∧ ∀ q ∈ qs, q.length ≤ 80 := by
  match o with
  | none => simp [tryArr] at h
  | some .jnull => simp [tryArr] at h
  | some (.jbool b) => simp [tryArr] at h
  | some (.jint n) => simp [tryArr] at h
  | some (.jnum raw) => simp [tryArr] at h
  | some (.jstr s) => simp [tryArr] at h
  | some (.jobj kv) => simp [tryArr] at h
  | some (.jarr l) =>
    simp only [tryArr] at h
    split at h
    · cases h
      constructor
      · simp [List.length_take]
      · intro q hq
        rw [List.mem_map] at hq
        obtain ⟨x, -, rfl⟩ := hq
        show (List.take 80 _).length ≤ 80
        simp [List.length_take]
    · cases h

theorem parse_questions_shape {text : String} {qs : List String}
    (h : _parse_questions_from_text text = some qs) : ∃ o, tryArr o = some qs := by
  unfold _parse_questions_from_text at h
  split at h
  · cases h
  · split at h
    · rename_i hz
      exact ⟨_, by rw [hz, h]⟩
    · split at h
      · rename_i hz
        rw [Option.bind_eq_some] at hz
        obtain ⟨g, -, hg⟩ := hz
        exact ⟨_, by rw [hg, h]⟩
      · rw [Option.bind_eq_some] at h
        obtain ⟨g, -, hg⟩ := h
        exact ⟨_, hg⟩

theorem default_getD_mem {i : Nat} (h : i < 3) :
    DEFAULT_QUESTIONS.getD i "" ∈ DEFAULT_QUESTIONS := by
  have : i = 0 ∨ i = 1 ∨ i = 2 := by omega
  rcases this with h | h | h <;> subst h <;> decide

theorem padQuestions_mem : ∀ (n : Nat) (qs : List String) (q : String),
    q ∈ padQuestions n qs → q ∈ qs ∨ q ∈ DEFAULT_QUESTIONS := by
  intro n
  induction n with
  | zero =>
    intro qs q h
    exact Or.inl h
  | succ m ih =>
    intro qs q h
    simp only [padQuestions] at h
    split at h
    · rename_i hlen
      rcases ih _ _ h with hq | hq
      · rcases List.mem_append.mp hq with hq | hq
        · exact Or.inl hq
        · rw [List.mem_singleton] at hq
          subst hq
          exact Or.inr (default_getD_mem hlen)
      · exact Or.inr hq
    · exact Or.inl h

theorem default_questions_bound : ∀ q ∈ DEFAULT_QUESTIONS, q.length ≤ 80 := by decide

/-- C4: `_parse_questions_from_text` on the plain JSON array
`["a","b","c"]` yields exactly those three questions; wrapped in a
fenced code block it yields the same; whenever parsing fails (in
particular on empty input) the caller's result is the 3-item default
list; a valid 2-item array is padded with the defaults in index order
(`DEFAULT_QUESTIONS[2]` fills slot 3); and every result holds at most
3 questions, each capped at 80 characters. -/
theorem claim_C4_suggestion_parsing :
    questions_from_text "[\"a\",\"b\",\"c\"]" = ["a", "b", "c"]
    ∧ questions_from_text "```json\n[\"a\",\"b\",\"c\"]\n```" = ["a", "b", "c"]
    ∧ questions_from_text "" = DEFAULT_QUESTIONS
    ∧ (∀ text, _parse_questions_from_text text = none →
        questions_from_text text = DEFAULT_QUESTIONS)
    ∧ questions_from_text "[\"a\",\"b\"]" = ["a", "b", "图中最大深度的节点有哪些？"]
    ∧ (∀ text, (questions_from_text text).length ≤ 3)
    ∧ (∀ text q, q ∈ questions_from_text text → q.length ≤ 80) := by
  refine ⟨by decide, by decide, by decide, ?_, by decide, ?_, ?_⟩
  · intro text h
    simp [questions_from_text, h]
  · intro text
    unfold questions_from_text
    match hp : _parse_questions_from_text text with
    | none => decide
    | some qs =>
      by_cases hq : qs.isEmpty
      · simp only [hq, if_true]
        decide
      · simp only [hq, if_false, Bool.false_eq_true]
        simp [List.length_take]
  · intro text q hq
    unfold questions_from_text at hq
    match hp : _parse_questions_from_text text with
    | none =>
      rw [hp] at hq
      exact default_questions_bound q hq
    | some qs =>
      rw [hp] at hq
      by_cases hqe : qs.isEmpty
      · simp only [hqe, if_true] at hq
        exact default_questions_bound q hq
      · simp only [hqe, if_false, Bool.false_eq_true] at hq
        have hpad := List.mem_of_mem_take hq
        rcases padQuestions_mem 3 qs q hpad with hmem | hmem
        · obtain ⟨o, ho⟩ := parse_questions_shape hp
          exact (tryArr_bound ho).2 q hmem
        · exact default_questions_bound q hmem

theorem claim_C4_witness :
    questions_from_text "oops" = DEFAULT_QUESTIONS
    ∧ (questions_from_text "[\"a\",\"b\",\"c\"]").length ≤ 3
    ∧ String.length "图中最大深度的节点有哪些？" ≤ 80 := by
  refine ⟨claim_C4_suggestion_parsing.2.2.2.1 "oops" (by decide),
    claim_C4_suggestion_parsing.2.2.2.2.2.1 _, ?_⟩
  exact claim_C4_suggestion_parsing.2.2.2.2.2.2 "oops" "图中最大深度的节点有哪些？" (by decide)

/-- C7: `slim_properties` is idempotent: slimming an already-slimmed
property mapping changes nothing (a truncated string has length 203 and
is re-truncated to the same value; a truncated list has length 10 and
passes the threshold test). -/
theorem claim_C7_slim_properties_idempotent (props : PropMap) :
    slim_properties (slim_properties props) = slim_properties props := by
  rw [slim_properties_eq_filterMap props, slim_properties_eq_filterMap,
    List.filterMap_filterMap]
  apply List.filterMap_congr
  intro kv _
  exact slimSpecEntry_idem kv

end ContextGraph
